import Mathlib

/-!
A shallow embedding of the checkout/orders subsystem of the
Rfid-Ecommerce-Project repository.

The embedded code is `src/checkout-service/main.py` (persistence helpers
`load_orders` / `save_orders`, the email dispatch
`send_customer_and_admin_emails`, and the endpoint `checkout_order`) and
`src/orders-service/main.py` (the read-only `list_orders` endpoint).

Modelling conventions:
- The orders JSON file is a `FileState`: absent, present-but-unparseable,
  or present with a parsed JSON value.  `json.load` can produce any JSON
  value, so the parsed content is an arbitrary `Json`, not merely a list
  of orders.
- JSON numbers are modelled as `Int` (the ids this subsystem writes are
  integers; Python booleans are `int` subtypes, so `True + 1` succeeds and
  is modelled by `jsonToPyInt`).
- Python expressions that can raise (`orders[-1]`, `o["order_id"]`,
  `x + 1` on a non-number, `orders.append` on a non-list) are modelled
  with `Option`; a `none` that escapes `checkout_order` is the framework's
  unhandled 500 error, distinct from the deliberate `HTTPException`
  (persistence error) and from pydantic's request validation error.
- `save_orders` opens the file in mode `"w"` (which truncates it) and
  then dumps the full list.  A `WriteOutcome` of the environment selects
  the faithful failure modes: `openFail` (makedirs/open raises before
  the file is touched — prior contents kept) and `dumpFail` (the dump
  raises after `open` already truncated — the file is left truncated or
  partially written, i.e. unparseable: any strict prefix of the dumped
  JSON array text is invalid JSON, so prior contents are destroyed).
- `send_customer_and_admin_emails` spawns a background worker; the
  notification *attempts* that worker eventually makes are recorded as a
  list of recipient addresses (message subjects/bodies do not affect any
  claim).  Delivery outcome is irrelevant: `_post_email` logs failures and
  never raises, so an attempt is made regardless of delivery success.
-/

/-- A JSON value, as produced by Python's `json.load`. -/
inductive Json where
  | null : Json
  | bool : Bool → Json
  | num : Int → Json
  | str : String → Json
  | arr : List Json → Json
  | obj : List (String × Json) → Json
deriving Repr

/-- State of the orders file on disk. -/
inductive FileState where
  | absent : FileState
  | unparseable : FileState
  | parsed : Json → FileState
deriving Repr

/-- Python truthiness of a JSON value (`if orders else 1`). -/
def pyTruthy : Json → Bool
  | .null => false
  | .bool b => b
  | .num n => n != 0
  | .str s => s != ""
  | .arr xs => !xs.isEmpty
  | .obj fs => !fs.isEmpty

/-- Python dictionary lookup on an object parsed by `json.load`: a
duplicated key keeps its last occurrence. `none` is a `KeyError`. -/
def jsonLookup (k : String) : List (String × Json) → Option Json
  | [] => none
  | (k', v) :: rest =>
      match jsonLookup k rest with
      | some v' => some v'
      | none => if k' = k then some v else none

/-- Coerce a JSON value to a Python integer for arithmetic: numbers are
ints, and Python booleans are an `int` subtype (`True + 1 == 2`);
anything else raises `TypeError`. -/
def jsonToPyInt : Json → Option Int
  | .num n => some n
  | .bool b => some (if b then 1 else 0)
  | _ => none

/-- The Python expression `o["order_id"]` coerced to an int:
`none` models a `KeyError`/`TypeError` along the way. -/
def orderIdOf : Json → Option Int
  | .obj fs => (jsonLookup "order_id" fs).bind jsonToPyInt
  | _ => none

/-- The Python expression `orders[-1]["order_id"]`, evaluated only when
`orders` is truthy: `none` models the raised `TypeError`/`KeyError`. -/
def getLastOrderId : Json → Option Int
  | .arr xs => match xs.getLast? with
      | some o => orderIdOf o
      | none => none
  | _ => none

/-- Line 157 of checkout-service:
`next_id = (orders[-1]["order_id"] + 1) if orders else 1`. -/
def nextIdOf (orders : Json) : Option Int :=
  if pyTruthy orders then (getLastOrderId orders).map (· + 1) else some 1

/-- `Customer` pydantic model (checkout-service). -/
structure Customer where
  student_id : String
  name : String
  institute : String
  phone : String
  email : String
  room : String
deriving DecidableEq, Repr

/-- `OrderItem` pydantic model (checkout-service). -/
structure OrderItem where
  item_id : Int
  template_id : String
  student_id : String
  name : String
  institute : String
  phone : String
  email : String
  room : String
deriving DecidableEq, Repr

/-- `OrderRequest` pydantic model: a request that already passed
pydantic validation (malformed bodies are rejected by the framework
before `checkout_order` runs). -/
structure OrderRequest where
  customer : Customer
  items : List OrderItem
deriving DecidableEq, Repr

/-- `customer.dict(by_alias=True)`: the `student_id` field serialises
under its alias `id`. -/
def Customer.toJson (c : Customer) : Json :=
  .obj [("id", .str c.student_id), ("name", .str c.name),
        ("institute", .str c.institute), ("phone", .str c.phone),
        ("email", .str c.email), ("room", .str c.room)]

/-- `item.dict()`. -/
def OrderItem.toJson (it : OrderItem) : Json :=
  .obj [("item_id", .num it.item_id), ("template_id", .str it.template_id),
        ("student_id", .str it.student_id), ("name", .str it.name),
        ("institute", .str it.institute), ("phone", .str it.phone),
        ("email", .str it.email), ("room", .str it.room)]

/-- The order dict built at lines 158-162 of checkout-service. -/
def mkOrder (next_id : Int) (req : OrderRequest) : Json :=
  .obj [("order_id", .num next_id),
        ("customer", req.customer.toJson),
        ("items", .arr (req.items.map OrderItem.toJson))]

/-- `load_orders` (checkout-service lines 80-88): if the file exists, try
to parse it and fall back to `[]` on any parse failure; if it does not
exist, return `[]`.  Total: it never raises. -/
def load_orders : FileState → Json
  | .absent => .arr []
  | .unparseable => .arr []
  | .parsed v => v

/-- How one `save_orders` call goes: `ok` — makedirs, open and dump all
succeed; `openFail` — makedirs/open raises before the file is touched;
`dumpFail` — `open(..., "w")` succeeded (truncating the file) and then
`json.dump` raises (disk full, I/O error) mid-write. -/
inductive WriteOutcome where
  | ok : WriteOutcome
  | openFail : WriteOutcome
  | dumpFail : WriteOutcome
deriving DecidableEq, Repr

/-- `save_orders` (checkout-service lines 90-94): rewrite the whole file
with the given list.  It performs no check on the list's content.  On
success the file holds exactly the dumped list.  On failure the
exception propagates and the `.error` carries the file state left
behind: unchanged when `open` never succeeded, but truncated/partially
written — hence unparseable — when the dump itself failed after mode
`"w"` had already truncated the file. -/
def save_orders (w : WriteOutcome) (orders : List Json) (file : FileState) :
    Except FileState FileState :=
  match w with
  | .ok => .ok (.parsed (.arr orders))
  | .openFail => .error file
  | .dumpFail => .error .unparseable

/-- `cust.get("email", "")` on `order["customer"]`, for the order dicts
this service builds (the `customer` key is always present there). -/
def custEmailOf (order : Json) : String :=
  match order with
  | .obj fs =>
      match jsonLookup "customer" fs with
      | some (.obj cs) =>
          match jsonLookup "email" cs with
          | some (.str e) => e
          | _ => ""
      | _ => ""
  | _ => ""

/-- `send_customer_and_admin_emails` (checkout-service lines 113-147):
the background worker posts the customer confirmation only when
`cust_email` is truthy (non-empty), then the admin notification only
when `ADMIN_EMAIL` is truthy.  The returned list records the recipients
of the attempts, in worker order; each recipient is attempted exactly
once regardless of delivery outcome (`_post_email` never raises). -/
def send_customer_and_admin_emails (adminEmail : String) (order : Json) :
    List String :=
  let cust_email := custEmailOf order
  (if cust_email ≠ "" then [cust_email] else []) ++
  (if adminEmail ≠ "" then [adminEmail] else [])

/-- Default value of the `ADMIN_EMAIL` configuration (line 47). -/
def defaultAdminEmail : String := "mangeshg1408@gmail.com"

/-- Outcome of one `POST /api/checkout` request.  `validationError` is
the framework's rejection of a malformed body (it never reaches
`checkout_order` and is unreachable in this embedding);
`persistenceError` is the explicit `HTTPException` 500 raised when
`save_orders` fails; `unhandledError` is any other exception escaping
the handler (`TypeError`/`KeyError`/`IndexError` from dynamic access). -/
inductive CheckoutResult where
  | success : Int → CheckoutResult
  | validationError : CheckoutResult
  | persistenceError : CheckoutResult
  | unhandledError : CheckoutResult
deriving DecidableEq, Repr

/-- The mutable state a checkout touches: the orders file, plus the log
of notification attempts (recipient addresses) made so far. -/
structure CheckoutState where
  file : FileState
  attempts : List String
deriving Repr

/-- `checkout_order` (checkout-service lines 152-174), with the
environment (this request's write outcome, admin address) passed
explicitly: load the orders, compute `next_id` from the *last* element,
build the order dict, append, save, then trigger the two emails.  When
`save_orders` raises, the `HTTPException` propagates with no emails
sent, and the file is whatever the failed write left behind. -/
def checkout_order (w : WriteOutcome) (adminEmail : String)
    (req : OrderRequest) (s : CheckoutState) :
    CheckoutResult × CheckoutState :=
  let orders := load_orders s.file
  match nextIdOf orders with
  | none => (.unhandledError, s)
  | some next_id =>
    match orders with
    | .arr xs =>
        let order := mkOrder next_id req
        match save_orders w (xs ++ [order]) s.file with
        | .ok file' =>
            (.success next_id,
             { file := file',
               attempts :=
                 s.attempts ++ send_customer_and_admin_emails adminEmail order })
        | .error file' => (.persistenceError, { file := file', attempts := s.attempts })
    | _ => (.unhandledError, s)

/-- Sequential execution of a list of submissions (no interleaving).
Each submission carries whether its write succeeds, so a sequence may
mix successful and failing persistence steps; a failing step here is an
open-time failure, which leaves the file untouched.  A dump-time
failure corrupts the store and resets the numbering, and is analysed
separately on single submissions. -/
def runCheckouts (adminEmail : String) :
    List (Bool × OrderRequest) → CheckoutState → List CheckoutResult × CheckoutState
  | [], s => ([], s)
  | (true, r) :: rs, s =>
      let (res, s') := checkout_order .ok adminEmail r s
      let (results, s'') := runCheckouts adminEmail rs s'
      (res :: results, s'')
  | (false, r) :: rs, s =>
      let (res, s') := checkout_order .openFail adminEmail r s
      let (results, s'') := runCheckouts adminEmail rs s'
      (res :: results, s'')

/-- The requests of the submissions whose persistence step succeeds
(those run with a writable file). -/
def successfulReqs : List (Bool × OrderRequest) → List OrderRequest
  | [] => []
  | (true, r) :: rest => r :: successfulReqs rest
  | (false, _) :: rest => successfulReqs rest

/-- The order dicts a run of submissions appends when the store's next
identifier is `k`: the i-th successful submission gets id `k + i`. -/
def ordersFrom (k : Int) : List OrderRequest → List Json
  | [] => []
  | r :: rs => mkOrder k r :: ordersFrom (k + 1) rs

/-- The per-submission responses of a run whose store's next identifier
is `k`: successful submissions get sequential ids, failing ones get the
persistence error and do not consume an id. -/
def resultsFrom (k : Int) : List (Bool × OrderRequest) → List CheckoutResult
  | [] => []
  | (true, _) :: rest => CheckoutResult.success k :: resultsFrom (k + 1) rest
  | (false, _) :: rest => CheckoutResult.persistenceError :: resultsFrom k rest

/-- Whether a checkout over this file reaches the `save_orders` call
(lines 166-167): the loaded value must be a list and the `next_id`
computation must not raise. -/
def reachesSave (file : FileState) : Bool :=
  match load_orders file with
  | .arr xs => (nextIdOf (.arr xs)).isSome
  | _ => false

/-- The next-identifier rule as the spec words it: (max existing id) + 1,
or 1 if the store is empty.  Written only for comparison with the
implementation's `nextIdOf`, which uses the *last* element instead. -/
def specNextId : List Json → Option Int
  | [] => some 1
  | xs => (xs.mapM orderIdOf).map (fun ids => ids.foldl max 0 + 1)

/-- The append-validation rule as the spec words it: the new order's id
is exactly one greater than the current maximum (or 1 if the store is
empty).  Written only for comparison: the implementation's
`save_orders` performs no such check. -/
def specAppendValid (prior : List Json) (order : Json) : Bool :=
  match orderIdOf order, specNextId prior with
  | some i, some k => i == k
  | _, _ => false

/-- The store invariant of the spec: every stored order has an integer
identifier and identifiers are strictly increasing in sequence order. -/
def strictIncIds : List Json → Bool
  | [] => true
  | [x] => (orderIdOf x).isSome
  | x :: y :: rest =>
      match orderIdOf x, orderIdOf y with
      | some a, some b => decide (a < b) && strictIncIds (y :: rest)
      | _, _ => false

/-- A sample valid order request (the spec's §8 example scenario). -/
def sampleReq : OrderRequest :=
  { customer := { student_id := "S1", name := "Ann", institute := "X",
                  phone := "555", email := "ann@x.edu", room := "12" },
    items := [{ item_id := 1, template_id := "t1", student_id := "S1",
                name := "Ann", institute := "X", phone := "555",
                email := "ann@x.edu", room := "12" }] }

/-- A valid order request whose customer email is the empty string. -/
def emptyEmailReq : OrderRequest :=
  { customer := { student_id := "S2", name := "Bob", institute := "X",
                  phone := "556", email := "", room := "13" },
    items := [] }

/-- `list_orders` (orders-service lines 39-53): the endpoint only opens
the file for reading, so the file state is returned unchanged alongside
the response body `{"orders": ...}`. -/
def list_orders (file : FileState) : Json × FileState :=
  match file with
  | .absent => (.obj [("orders", .arr [])], file)
  | .unparseable => (.obj [("orders", .arr [])], file)
  | .parsed v => (.obj [("orders", v)], file)

/-! ### Basic evaluation lemmas -/

lemma orderIdOf_mkOrder (k : Int) (req : OrderRequest) :
    orderIdOf (mkOrder k req) = some k := rfl

lemma custEmailOf_mkOrder (k : Int) (req : OrderRequest) :
    custEmailOf (mkOrder k req) = req.customer.email := rfl

lemma nextIdOf_nil : nextIdOf (.arr []) = some 1 := rfl

lemma nextIdOf_append_mkOrder (xs : List Json) (k : Int) (req : OrderRequest) :
    nextIdOf (.arr (xs ++ [mkOrder k req])) = some (k + 1) := by
  simp [nextIdOf, pyTruthy, getLastOrderId, List.getLast?_append,
    orderIdOf_mkOrder]

lemma send_emails_mkOrder (adminEmail : String) (k : Int) (req : OrderRequest) :
    send_customer_and_admin_emails adminEmail (mkOrder k req)
      = (if req.customer.email ≠ "" then [req.customer.email] else [])
        ++ (if adminEmail ≠ "" then [adminEmail] else []) := by
  simp [send_customer_and_admin_emails, custEmailOf_mkOrder]

/-- A checkout over a file whose loaded value is a list with a defined
next identifier, with a writable file: it succeeds, appends exactly the
new order at the tail, and records the dispatcher's attempts. -/
lemma checkout_order_success_eq (adminEmail : String) (req : OrderRequest)
    (s : CheckoutState) (xs : List Json) (k : Int)
    (hload : load_orders s.file = .arr xs)
    (hnext : nextIdOf (.arr xs) = some k) :
    checkout_order .ok adminEmail req s
      = (.success k,
         { file := .parsed (.arr (xs ++ [mkOrder k req])),
           attempts := s.attempts
             ++ send_customer_and_admin_emails adminEmail (mkOrder k req) }) := by
  simp [checkout_order, hload, hnext, save_orders]

/-- The same checkout when `open` fails before touching the file: the
explicit `HTTPException` is raised and the state is unchanged. -/
lemma checkout_order_fail_eq (adminEmail : String) (req : OrderRequest)
    (s : CheckoutState) (xs : List Json) (k : Int)
    (hload : load_orders s.file = .arr xs)
    (hnext : nextIdOf (.arr xs) = some k) :
    checkout_order .openFail adminEmail req s = (.persistenceError, s) := by
  simp [checkout_order, hload, hnext, save_orders]

/-- The same checkout when the dump itself fails after `open(..., "w")`
truncated the file: the persistence error is raised and no notification
attempt is made, but the store is left unparseable — the prior contents
are destroyed, not preserved. -/
lemma checkout_order_dumpFail_eq (adminEmail : String) (req : OrderRequest)
    (s : CheckoutState) (xs : List Json) (k : Int)
    (hload : load_orders s.file = .arr xs)
    (hnext : nextIdOf (.arr xs) = some k) :
    checkout_order .dumpFail adminEmail req s
      = (.persistenceError,
         { file := FileState.unparseable, attempts := s.attempts }) := by
  simp [checkout_order, hload, hnext, save_orders]

/-! ### The sequential-run lemma -/

lemma ordersFrom_length (reqs : List OrderRequest) :
    ∀ k : Int, (ordersFrom k reqs).length = reqs.length := by
  induction reqs with
  | nil => intro k; rfl
  | cons r rs ih => intro k; simp [ordersFrom, ih]

lemma ordersFrom_map_orderIdOf (reqs : List OrderRequest) :
    ∀ k : Int, (ordersFrom k reqs).map orderIdOf
      = (List.range reqs.length).map (fun i : Nat => some (k + (i : Int))) := by
  induction reqs with
  | nil => intro k; rfl
  | cons r rs ih =>
      intro k
      calc (ordersFrom k (r :: rs)).map orderIdOf
          = some k :: (ordersFrom (k + 1) rs).map orderIdOf := by
            simp [ordersFrom, orderIdOf_mkOrder]
        _ = some k
            :: (List.range rs.length).map (fun i : Nat => some ((k + 1) + (i : Int))) := by
            rw [ih]
        _ = (List.range (r :: rs).length).map (fun i : Nat => some (k + (i : Int))) := by
            rw [List.length_cons, List.range_succ_eq_map, List.map_cons,
              List.map_map]
            congr 1
            · norm_num
            · refine (List.map_congr_left fun i _ => ?_).symm
              simp only [Function.comp_apply]
              congr 1
              push_cast
              ring

lemma runCheckouts_general (adminEmail : String) :
    ∀ (jobs : List (Bool × OrderRequest)) (s : CheckoutState)
      (xs : List Json) (k : Int),
      load_orders s.file = .arr xs → nextIdOf (.arr xs) = some k →
      (runCheckouts adminEmail jobs s).1 = resultsFrom k jobs
      ∧ load_orders (runCheckouts adminEmail jobs s).2.file
          = .arr (xs ++ ordersFrom k (successfulReqs jobs)) := by
  intro jobs
  induction jobs with
  | nil =>
      intro s xs k hload hnext
      exact ⟨rfl, by simpa [runCheckouts, successfulReqs, ordersFrom] using hload⟩
  | cons job rest ih =>
      intro s xs k hload hnext
      obtain ⟨w, r⟩ := job
      cases w with
      | true =>
          have hstep := checkout_order_success_eq adminEmail r s xs k hload hnext
          have hload' :
              load_orders (CheckoutState.mk (.parsed (.arr (xs ++ [mkOrder k r])))
                  (s.attempts
                    ++ send_customer_and_admin_emails adminEmail (mkOrder k r))).file
                = .arr (xs ++ [mkOrder k r]) := rfl
          have hnext' := nextIdOf_append_mkOrder xs k r
          have := ih _ _ _ hload' hnext'
          refine ⟨?_, ?_⟩
          · simp only [runCheckouts, hstep, resultsFrom]
            exact congrArg _ this.1
          · simp only [runCheckouts, hstep]
            rw [this.2]
            simp [successfulReqs, ordersFrom]
      | false =>
          have hstep := checkout_order_fail_eq adminEmail r s xs k hload hnext
          have := ih s xs k hload hnext
          refine ⟨?_, ?_⟩
          · simp only [runCheckouts, hstep, resultsFrom]
            exact congrArg _ this.1
          · simp only [runCheckouts, hstep, successfulReqs]
            exact this.2

/-- Inversion: a checkout that answers `success k` ran with a fully
successful write, loaded a list `xs`, and computed `next_id = k`. -/
lemma checkout_order_success_inv (w : WriteOutcome) (A : String)
    (req : OrderRequest) (s : CheckoutState) (k : Int)
    (h : (checkout_order w A req s).1 = CheckoutResult.success k) :
    w = WriteOutcome.ok
    ∧ ∃ xs, load_orders s.file = .arr xs ∧ nextIdOf (.arr xs) = some k := by
  simp only [checkout_order] at h
  rcases hn : nextIdOf (load_orders s.file) with _ | n
  · rw [hn] at h; simp at h
  · rw [hn] at h
    rcases hl : load_orders s.file with _ | b | m | st | xs | fs <;> rw [hl] at h <;>
      (try simp at h)
    rw [hl] at hn
    cases w with
    | openFail => simp [save_orders] at h
    | dumpFail => simp [save_orders] at h
    | ok =>
        simp only [save_orders] at h
        cases h
        exact ⟨rfl, xs, rfl, hn⟩

/-! ### The claims -/

/-- C1: starting from an empty or absent Order Store, a sequence of
sequential submissions whose persistence steps succeed yields a store of
exactly N orders with identifiers 1..N in submission order; interleaved
submissions whose persistence fails are rejected and consume no
identifier. -/
theorem checkout_C1 (jobs : List (Bool × OrderRequest)) (file0 : FileState)
    (h : file0 = FileState.absent ∨ file0 = FileState.parsed (.arr [])) :
    (runCheckouts defaultAdminEmail jobs ⟨file0, []⟩).1 = resultsFrom 1 jobs
    ∧ load_orders (runCheckouts defaultAdminEmail jobs ⟨file0, []⟩).2.file
        = .arr (ordersFrom 1 (successfulReqs jobs))
    ∧ (ordersFrom 1 (successfulReqs jobs)).length = (successfulReqs jobs).length
    ∧ (ordersFrom 1 (successfulReqs jobs)).map orderIdOf
        = (List.range (successfulReqs jobs).length).map
            (fun i : Nat => some (1 + (i : Int))) := by
  have hload : load_orders (CheckoutState.mk file0 []).file = .arr [] := by
    rcases h with h | h <;> rw [h] <;> rfl
  have hg := runCheckouts_general defaultAdminEmail jobs ⟨file0, []⟩ [] 1 hload
    nextIdOf_nil
  refine ⟨hg.1, ?_, ordersFrom_length _ 1, ordersFrom_map_orderIdOf _ 1⟩
  simpa using hg.2

/-- Witness for C1: two successful submissions from an absent store give
responses `success 1`, `success 2` and a store of two orders. -/
theorem checkout_C1_witness :
    (runCheckouts defaultAdminEmail [(true, sampleReq), (true, sampleReq)]
        ⟨FileState.absent, []⟩).1
      = resultsFrom 1 [(true, sampleReq), (true, sampleReq)]
    ∧ load_orders (runCheckouts defaultAdminEmail
        [(true, sampleReq), (true, sampleReq)] ⟨FileState.absent, []⟩).2.file
      = .arr (ordersFrom 1 (successfulReqs [(true, sampleReq), (true, sampleReq)]))
    ∧ resultsFrom 1 [(true, sampleReq), (true, sampleReq)]
      = [CheckoutResult.success 1, CheckoutResult.success 2] := by
  have h := checkout_C1 [(true, sampleReq), (true, sampleReq)] .absent (Or.inl rfl)
  exact ⟨h.1, h.2.1, rfl⟩

/-- C2 counterexample: a dump-time persistence failure (e.g. disk full
during `json.dump`, after `open(..., "w")` has already truncated the
file) makes the submission fail with the persistence error and triggers
no notification attempt, but it does NOT leave the store's prior
contents unchanged: the one-order store ends up unparseable, and the
next load sees the empty list instead of the stored order. -/
theorem checkout_C2_counterexample :
    checkout_order .dumpFail defaultAdminEmail sampleReq
        ⟨.parsed (.arr [mkOrder 1 sampleReq]), []⟩
      = (.persistenceError, ⟨FileState.unparseable, []⟩)
    ∧ FileState.unparseable ≠ FileState.parsed (.arr [mkOrder 1 sampleReq])
    ∧ load_orders FileState.unparseable = .arr [] :=
  ⟨rfl, fun h => FileState.noConfusion h, rfl⟩

/-- C2 amended: a submission whose persistence step fails always fails
as a whole with the persistence error and triggers no notification
attempt; the store's prior contents are left unchanged only when the
failure strikes before the file is opened for writing (permissions,
missing directory) — a failure during the dump itself, after mode `"w"`
truncated the file, leaves the store truncated/corrupt, destroying the
prior contents. -/
theorem checkout_C2_amended (w : WriteOutcome) (adminEmail : String)
    (req : OrderRequest) (s : CheckoutState)
    (hw : w ≠ WriteOutcome.ok) (h : reachesSave s.file = true) :
    (checkout_order w adminEmail req s).1 = CheckoutResult.persistenceError
    ∧ (checkout_order w adminEmail req s).2.attempts = s.attempts
    ∧ (w = WriteOutcome.openFail →
        (checkout_order w adminEmail req s).2.file = s.file)
    ∧ (w = WriteOutcome.dumpFail →
        (checkout_order w adminEmail req s).2.file = FileState.unparseable) := by
  unfold reachesSave at h
  cases hl : load_orders s.file with
  | arr xs =>
      rw [hl] at h
      obtain ⟨k, hk⟩ := Option.isSome_iff_exists.mp h
      cases w with
      | ok => exact absurd rfl hw
      | openFail =>
          rw [checkout_order_fail_eq adminEmail req s xs k hl hk]
          exact ⟨rfl, rfl, fun _ => rfl, fun hww => WriteOutcome.noConfusion hww⟩
      | dumpFail =>
          rw [checkout_order_dumpFail_eq adminEmail req s xs k hl hk]
          exact ⟨rfl, rfl, fun hww => WriteOutcome.noConfusion hww, fun _ => rfl⟩
  | null => rw [hl] at h; simp at h
  | bool b => rw [hl] at h; simp at h
  | num n => rw [hl] at h; simp at h
  | str st => rw [hl] at h; simp at h
  | obj fs => rw [hl] at h; simp at h

/-- Witness for C2 amended: a store holding one order, open-time write
failure — the whole state survives untouched. -/
theorem checkout_C2_amended_witness :
    WriteOutcome.openFail ≠ WriteOutcome.ok
    ∧ reachesSave (.parsed (.arr [mkOrder 1 sampleReq])) = true
    ∧ ((checkout_order WriteOutcome.openFail defaultAdminEmail sampleReq
          ⟨.parsed (.arr [mkOrder 1 sampleReq]), []⟩).1
        = CheckoutResult.persistenceError
      ∧ (checkout_order WriteOutcome.openFail defaultAdminEmail sampleReq
          ⟨.parsed (.arr [mkOrder 1 sampleReq]), []⟩).2.attempts
        = (CheckoutState.mk (.parsed (.arr [mkOrder 1 sampleReq])) []).attempts
      ∧ (WriteOutcome.openFail = WriteOutcome.openFail →
          (checkout_order WriteOutcome.openFail defaultAdminEmail sampleReq
            ⟨.parsed (.arr [mkOrder 1 sampleReq]), []⟩).2.file
          = (CheckoutState.mk (.parsed (.arr [mkOrder 1 sampleReq])) []).file)
      ∧ (WriteOutcome.openFail = WriteOutcome.dumpFail →
          (checkout_order WriteOutcome.openFail defaultAdminEmail sampleReq
            ⟨.parsed (.arr [mkOrder 1 sampleReq]), []⟩).2.file
          = FileState.unparseable)) :=
  ⟨fun h => WriteOutcome.noConfusion h, rfl,
    checkout_C2_amended WriteOutcome.openFail defaultAdminEmail sampleReq
      ⟨.parsed (.arr [mkOrder 1 sampleReq]), []⟩
      (fun h => WriteOutcome.noConfusion h) rfl⟩

/-- C3 counterexample: from an empty store, a submission whose customer
email field is the empty string persists successfully, yet the worker's
truthiness guard (`if cust_email:`) skips the customer message — the
only notification attempt made is the administrator's, so "exactly one
customer notification attempt" fails for this customer. -/
theorem checkout_C3_counterexample :
    (checkout_order .ok defaultAdminEmail emptyEmailReq
        ⟨.parsed (.arr []), []⟩).1 = CheckoutResult.success 1
    ∧ (checkout_order .ok defaultAdminEmail emptyEmailReq
        ⟨.parsed (.arr []), []⟩).2.attempts = [defaultAdminEmail]
    ∧ ((checkout_order .ok defaultAdminEmail emptyEmailReq
        ⟨.parsed (.arr []), []⟩).2.attempts).count
          emptyEmailReq.customer.email = 0 :=
  ⟨rfl, rfl, rfl⟩

/-- C3 amended: a submission whose persistence step succeeds triggers
exactly one administrator notification attempt (the admin address being
the non-empty configured default), and exactly one customer notification
attempt when the customer's email is non-empty — but none when that
field is the empty string, which the worker's truthiness guard skips.
Attempts are counted irrespective of delivery outcome. -/
theorem checkout_C3_amended (req : OrderRequest) (s : CheckoutState) (k : Int)
    (h : (checkout_order .ok defaultAdminEmail req s).1
      = CheckoutResult.success k) :
    (checkout_order .ok defaultAdminEmail req s).2.attempts
      = s.attempts
        ++ (if req.customer.email ≠ "" then [req.customer.email] else [])
        ++ [defaultAdminEmail] := by
  obtain ⟨-, xs, hl, hk⟩ := checkout_order_success_inv .ok defaultAdminEmail
    req s k h
  rw [checkout_order_success_eq defaultAdminEmail req s xs k hl hk]
  rw [send_emails_mkOrder]
  have hA : (defaultAdminEmail ≠ "") = True := by simp [defaultAdminEmail]
  simp only [hA, if_true, List.append_assoc]

/-- Witness for C3 amended: the spec's §8 example customer, whose email
is non-empty, gets one customer attempt and one admin attempt. -/
theorem checkout_C3_amended_witness :
    (checkout_order .ok defaultAdminEmail sampleReq
        ⟨FileState.absent, []⟩).1 = CheckoutResult.success 1
    ∧ (checkout_order .ok defaultAdminEmail sampleReq
        ⟨FileState.absent, []⟩).2.attempts
      = [] ++ (if sampleReq.customer.email ≠ "" then [sampleReq.customer.email]
               else []) ++ [defaultAdminEmail] :=
  ⟨rfl, checkout_C3_amended sampleReq ⟨FileState.absent, []⟩ 1 rfl⟩

/-- C4 counterexample: a stored sequence that is not sorted by
identifier — last order id 3, maximum id 5.  The implementation assigns
`orders[-1]["order_id"] + 1 = 4` to the next submission, not the
spec-worded maximum-plus-one, which is 6. -/
theorem checkout_C4_counterexample :
    (checkout_order .ok defaultAdminEmail sampleReq
        ⟨.parsed (.arr [mkOrder 5 sampleReq, mkOrder 3 sampleReq]), []⟩).1
      = CheckoutResult.success 4
    ∧ specNextId [mkOrder 5 sampleReq, mkOrder 3 sampleReq] = some 6
    ∧ (4 : Int) ≠ 6 :=
  ⟨rfl, rfl, by decide⟩

/-- C4 amended: the identifier assigned to the next submission is the
*last* stored order's identifier plus one — or 1 when the loaded store
is the empty list — which agrees with maximum-plus-one only when the
maximum sits at the tail (e.g. when the store is sorted). -/
theorem checkout_C4_amended (req : OrderRequest) (s : CheckoutState)
    (xs : List Json) (hf : load_orders s.file = .arr xs) :
    (xs = [] →
      (checkout_order .ok defaultAdminEmail req s).1 = CheckoutResult.success 1)
    ∧ (∀ m : Int, getLastOrderId (.arr xs) = some m →
      (checkout_order .ok defaultAdminEmail req s).1
        = CheckoutResult.success (m + 1)) := by
  constructor
  · intro hxs
    subst hxs
    rw [checkout_order_success_eq defaultAdminEmail req s [] 1 hf nextIdOf_nil]
  · intro m hm
    have hne : xs ≠ [] := by
      intro hxs
      subst hxs
      simp [getLastOrderId] at hm
    have hk : nextIdOf (.arr xs) = some (m + 1) := by
      simp [nextIdOf, pyTruthy, List.isEmpty_iff, hne, hm]
    rw [checkout_order_success_eq defaultAdminEmail req s xs (m + 1) hf hk]

/-- Witness for C4 amended: from the unsorted two-order store whose last
id is 3, the next submission is assigned 4. -/
theorem checkout_C4_amended_witness :
    load_orders (.parsed (.arr [mkOrder 5 sampleReq, mkOrder 3 sampleReq]))
      = .arr [mkOrder 5 sampleReq, mkOrder 3 sampleReq]
    ∧ getLastOrderId (.arr [mkOrder 5 sampleReq, mkOrder 3 sampleReq]) = some 3
    ∧ (checkout_order .ok defaultAdminEmail sampleReq
        ⟨.parsed (.arr [mkOrder 5 sampleReq, mkOrder 3 sampleReq]), []⟩).1
      = CheckoutResult.success (3 + 1) :=
  ⟨rfl, rfl,
    (checkout_C4_amended sampleReq
      ⟨.parsed (.arr [mkOrder 5 sampleReq, mkOrder 3 sampleReq]), []⟩
      [mkOrder 5 sampleReq, mkOrder 3 sampleReq] rfl).2 3 rfl⟩

/-- C5 counterexample: `save_orders` never validates identifiers.
Appending an order with id 7 to a store whose maximum (and only) id is 9
violates the spec-worded max-plus-one rule, yet the write succeeds and
persists exactly that sequence instead of refusing. -/
theorem save_C5_counterexample :
    specAppendValid [mkOrder 9 sampleReq] (mkOrder 7 sampleReq) = false
    ∧ save_orders .ok ([mkOrder 9 sampleReq] ++ [mkOrder 7 sampleReq])
        (.parsed (.arr [mkOrder 9 sampleReq]))
      = .ok (.parsed (.arr ([mkOrder 9 sampleReq] ++ [mkOrder 7 sampleReq]))) :=
  ⟨rfl, rfl⟩

/-- C5 amended: the append path performs no identifier validation at
all — whenever the resource is writable, `save_orders` rewrites the
backing resource with exactly the sequence it is given, even when that
sequence violates the spec-worded max-plus-one rule.  The id-is-tail+1
relation of stored data holds only because `checkout_order` happens to
compute `next_id` from the loaded tail, not because the store checks
anything. -/
theorem save_C5_amended (prior : List Json) (order : Json) (file : FileState)
    (_h : specAppendValid prior order = false) :
    save_orders .ok (prior ++ [order]) file
      = .ok (.parsed (.arr (prior ++ [order]))) := rfl

/-- Witness for C5 amended: the invalid append of the counterexample
scenario is persisted without complaint. -/
theorem save_C5_amended_witness :
    specAppendValid [mkOrder 9 sampleReq] (mkOrder 7 sampleReq) = false
    ∧ save_orders .ok ([mkOrder 9 sampleReq] ++ [mkOrder 7 sampleReq])
        FileState.absent
      = .ok (.parsed (.arr ([mkOrder 9 sampleReq] ++ [mkOrder 7 sampleReq]))) :=
  ⟨rfl, save_C5_amended [mkOrder 9 sampleReq] (mkOrder 7 sampleReq)
    FileState.absent rfl⟩

/-- In a store satisfying the strictly-increasing invariant, the last
element has a well-defined integer identifier. -/
lemma strictIncIds_last (xs : List Json) (hinv : strictIncIds xs = true)
    (hne : xs ≠ []) : ∃ m, getLastOrderId (.arr xs) = some m := by
  induction xs with
  | nil => exact absurd rfl hne
  | cons x rest ih =>
      cases rest with
      | nil =>
          obtain ⟨m, hm⟩ := Option.isSome_iff_exists.mp hinv
          exact ⟨m, by simp [getLastOrderId, hm]⟩
      | cons y rest' =>
          rcases hx : orderIdOf x with _ | a <;> rw [strictIncIds, hx] at hinv
          · simp at hinv
          · rcases hy : orderIdOf y with _ | b <;> rw [hy] at hinv
            · simp at hinv
            · rw [Bool.and_eq_true] at hinv
              obtain ⟨m, hm⟩ := ih hinv.2 (by simp)
              refine ⟨m, ?_⟩
              simpa [getLastOrderId, List.getLast?_cons_cons] using hm

/-- Appending an order whose identifier strictly exceeds the last stored
identifier preserves the strictly-increasing invariant. -/
lemma strictIncIds_append (xs : List Json) (o : Json) (n : Int)
    (hinv : strictIncIds xs = true) (ho : orderIdOf o = some n)
    (hlt : ∀ m, getLastOrderId (.arr xs) = some m → m < n) :
    strictIncIds (xs ++ [o]) = true := by
  induction xs with
  | nil => simp [strictIncIds, ho]
  | cons x rest ih =>
      cases rest with
      | nil =>
          obtain ⟨a, ha⟩ := Option.isSome_iff_exists.mp hinv
          have hlt' : a < n := hlt a (by simp [getLastOrderId, ha])
          simp [strictIncIds, ha, ho, hlt']
      | cons y rest' =>
          rcases hx : orderIdOf x with _ | a <;> rw [strictIncIds, hx] at hinv
          · simp at hinv
          · rcases hy : orderIdOf y with _ | b <;> rw [hy] at hinv
            · simp at hinv
            · rw [Bool.and_eq_true] at hinv
              obtain ⟨hab, hrest⟩ := hinv
              have hlt' : ∀ m, getLastOrderId (.arr (y :: rest')) = some m → m < n := by
                intro m hm
                refine hlt m ?_
                simpa [getLastOrderId, List.getLast?_cons_cons] using hm
              have hres := ih hrest hlt'
              simp only [List.cons_append] at hres ⊢
              simp only [strictIncIds, hx, hy]
              simp [hab, hres]

/-- C6: from any store satisfying the strictly-increasing-identifier
invariant, a submission whose write succeeds rewrites the
store as exactly the prior sequence with the one new order appended at
the tail (every previously stored order present and unmodified), and
the resulting sequence still satisfies the invariant. -/
theorem checkout_C6 (req : OrderRequest) (s : CheckoutState) (xs : List Json)
    (hf : load_orders s.file = .arr xs) (hinv : strictIncIds xs = true) :
    ∃ k, checkout_order .ok defaultAdminEmail req s
        = (.success k,
           { file := .parsed (.arr (xs ++ [mkOrder k req])),
             attempts := s.attempts
               ++ send_customer_and_admin_emails defaultAdminEmail
                    (mkOrder k req) })
      ∧ strictIncIds (xs ++ [mkOrder k req]) = true := by
  rcases eq_or_ne xs [] with hxs | hxs
  · subst hxs
    exact ⟨1, checkout_order_success_eq defaultAdminEmail req s [] 1 hf
      nextIdOf_nil, rfl⟩
  · obtain ⟨m, hm⟩ := strictIncIds_last xs hinv hxs
    have hk : nextIdOf (.arr xs) = some (m + 1) := by
      simp [nextIdOf, pyTruthy, List.isEmpty_iff, hxs, hm]
    refine ⟨m + 1,
      checkout_order_success_eq defaultAdminEmail req s xs (m + 1) hf hk, ?_⟩
    refine strictIncIds_append xs (mkOrder (m + 1) req) (m + 1) hinv
      (orderIdOf_mkOrder _ _) ?_
    intro m' hm'
    have : m' = m := by
      have := hm.symm.trans hm'
      exact (Option.some_inj.mp this).symm
    omega

/-- Witness for C6: a one-order store with id 1 gains an order with
id 2 at the tail and keeps the invariant. -/
theorem checkout_C6_witness :
    load_orders (.parsed (.arr [mkOrder 1 sampleReq]))
      = .arr [mkOrder 1 sampleReq]
    ∧ strictIncIds [mkOrder 1 sampleReq] = true
    ∧ ∃ k, checkout_order .ok defaultAdminEmail sampleReq
        ⟨.parsed (.arr [mkOrder 1 sampleReq]), []⟩
        = (.success k,
           { file := .parsed (.arr ([mkOrder 1 sampleReq] ++ [mkOrder k sampleReq])),
             attempts := []
               ++ send_customer_and_admin_emails defaultAdminEmail
                    (mkOrder k sampleReq) })
      ∧ strictIncIds ([mkOrder 1 sampleReq] ++ [mkOrder k sampleReq]) = true :=
  ⟨rfl, rfl, checkout_C6 sampleReq ⟨.parsed (.arr [mkOrder 1 sampleReq]), []⟩
    [mkOrder 1 sampleReq] rfl rfl⟩

/-- C7: `load_orders` never fails its caller — it is a total function,
and for every state of the backing resource in which the file is absent
or its content cannot be parsed it returns the empty sequence instead of
raising. -/
theorem load_orders_C7 (file : FileState)
    (h : file = FileState.absent ∨ file = FileState.unparseable) :
    load_orders file = .arr [] := by
  rcases h with h | h <;> rw [h] <;> rfl

/-- Witness for C7: both degenerate file states give the empty list. -/
theorem load_orders_C7_witness :
    load_orders FileState.absent = .arr []
    ∧ load_orders FileState.unparseable = .arr [] :=
  ⟨load_orders_C7 FileState.absent (Or.inl rfl),
   load_orders_C7 FileState.unparseable (Or.inr rfl)⟩

/-- C8: if the backing file is deleted or replaced with unparseable
content before a submission, the submission (with a writable file) still
succeeds, is assigned identifier 1, and the resulting store holds only
the newly built order — the prior history is silently discarded. -/
theorem checkout_C8 (req : OrderRequest) (att : List String)
    (file0 : FileState)
    (h : file0 = FileState.absent ∨ file0 = FileState.unparseable) :
    (checkout_order .ok defaultAdminEmail req ⟨file0, att⟩).1
        = CheckoutResult.success 1
    ∧ (checkout_order .ok defaultAdminEmail req ⟨file0, att⟩).2.file
        = .parsed (.arr [mkOrder 1 req]) := by
  have hload : load_orders (CheckoutState.mk file0 att).file = .arr [] := by
    rcases h with h | h <;> rw [h] <;> rfl
  rw [checkout_order_success_eq defaultAdminEmail req ⟨file0, att⟩ [] 1 hload
    nextIdOf_nil]
  exact ⟨rfl, rfl⟩

/-- Witness for C8: a corrupt (unparseable) file before the submission. -/
theorem checkout_C8_witness :
    (checkout_order .ok defaultAdminEmail sampleReq
        ⟨FileState.unparseable, []⟩).1 = CheckoutResult.success 1
    ∧ (checkout_order .ok defaultAdminEmail sampleReq
        ⟨FileState.unparseable, []⟩).2.file
        = .parsed (.arr [mkOrder 1 sampleReq]) :=
  checkout_C8 sampleReq [] FileState.unparseable (Or.inr rfl)

/-- C9: the read-only `list_orders` endpoint answers `{"orders": []}`
whenever the backing resource is absent or unparseable, answers the full
stored value otherwise, and never modifies the backing resource. -/
theorem list_orders_C9 :
    (∀ file : FileState,
        file = FileState.absent ∨ file = FileState.unparseable →
        list_orders file = (.obj [("orders", .arr [])], file))
    ∧ (∀ v : Json, list_orders (.parsed v) = (.obj [("orders", v)], .parsed v))
    ∧ (∀ file : FileState, (list_orders file).2 = file) := by
  refine ⟨?_, fun v => rfl, ?_⟩
  · rintro file (h | h) <;> subst h <;> rfl
  · intro file
    cases file <;> rfl

/-- Witness for C9: the absent-file case of the endpoint. -/
theorem list_orders_C9_witness :
    list_orders FileState.absent
      = (.obj [("orders", .arr [])], FileState.absent) :=
  list_orders_C9.1 FileState.absent (Or.inl rfl)

/-- C10: file contents that parse as valid JSON but are not a list of
orders carrying an integer id are returned by `load_orders` unchanged,
and the subsequent submission dies with an unhandled error — here a JSON
number (the `orders[-1]` subscript raises `TypeError`) and a non-empty
list whose last element lacks the `order_id` key (`KeyError`) — which is
neither the validation error nor the persistence error, and the state is
left as it was. -/
theorem checkout_C10 :
    (load_orders (.parsed (.num 7)) = .num 7
     ∧ checkout_order .ok defaultAdminEmail sampleReq
         ⟨.parsed (.num 7), []⟩
       = (CheckoutResult.unhandledError, ⟨.parsed (.num 7), []⟩))
    ∧ (load_orders (.parsed (.arr [.obj [("foo", .num 1)]]))
         = .arr [.obj [("foo", .num 1)]]
     ∧ checkout_order .ok defaultAdminEmail sampleReq
         ⟨.parsed (.arr [.obj [("foo", .num 1)]]), []⟩
       = (CheckoutResult.unhandledError,
          ⟨.parsed (.arr [.obj [("foo", .num 1)]]), []⟩))
    ∧ CheckoutResult.unhandledError ≠ CheckoutResult.validationError
    ∧ CheckoutResult.unhandledError ≠ CheckoutResult.persistenceError :=
  ⟨⟨rfl, rfl⟩, ⟨rfl, rfl⟩, by decide, by decide⟩
